import Mathlib

/-!
Verification of the aider llama.cpp adapter layer: a shallow embedding of
`src/aider/sendchat.py` (dispatch + retry facade) and
`src/aider/llama_server_model.py` (backend adapter class), with theorems
settling the specification claims about routing, hashing/caching, prompt
rendering, retry backoff, error wrapping and token counting.

Modelling conventions:
* Python dicts of chat messages become the `Message` structure.
* `hashlib.sha1(b)` is modelled by `Sha1` carrying its input bytes/string:
  two hashes are equal exactly when their inputs are equal (the intended
  abstraction of a collision-free digest).
* `json.dumps(kwargs, sort_keys=True)` is modelled by a deterministic
  serialisation that sorts the association list by key and renders each
  entry; the exact character-level format of the rendering is irrelevant
  to the claims, only its determinism and its key-sorting.
* Network I/O (`requests.post`, `requests.get`, `litellm.completion`) is
  modelled by oracle functions packaged in a `World` record; each embedded
  function additionally returns the list of I/O effects it performed, so
  "no network request is made" is a statement about that trace.
* Python exceptions become `Except` errors; a Python generator (a function
  body containing `yield`) becomes a value capturing its arguments whose
  body runs only when the caller forces it, matching Python's deferred
  execution of generator bodies.
-/

set_option autoImplicit false

namespace Aider

/-- A chat message: a dict with a `role` and a `content` string. -/
structure Message where
  role : String
  content : String
deriving DecidableEq, Repr

/-- Model of a `hashlib.sha1` object, identified by the bytes it hashed. -/
structure Sha1 where
  input : String
deriving DecidableEq, Repr

/-- Model of `hashlib.sha1(key)`. -/
def sha1 (s : String) : Sha1 := ⟨s⟩

/-- Python `s.startswith(pre)`, modelled on the character list. -/
def strStartsWith (s pre : String) : Bool := pre.data.isPrefixOf s.data

/-- Python `s[n:]`, modelled on the character list. -/
def strDrop (s : String) (n : Nat) : String := ⟨s.data.drop n⟩

/-- Lexicographic comparison of character lists by code point, the order
`sorted` / `sort_keys=True` uses on Python strings. -/
def charListLe : List Char → List Char → Bool
  | [], _ => true
  | _ :: _, [] => false
  | a :: as, b :: bs =>
    if a.toNat < b.toNat then true
    else if b.toNat < a.toNat then false
    else charListLe as bs

/-- Python `a <= b` on strings. -/
def keyLe (a b : String) : Bool := charListLe a.data b.data

/-- Python `a == b` on strings. -/
def strEq (a b : String) : Bool := a.data == b.data

/-- The JSON body of a (non-streaming) llama.cpp `/completion` reply, or of
one streamed chunk: `\x7bcontent: string, stop?: bool\x7d`.  `none` models an
absent field, read back through `.get` with a default. -/
structure LocalData where
  content : Option String
  stop : Option Bool
deriving DecidableEq, Repr

/-- The request payload built for the llama.cpp `/completion` endpoint:
`\x7bprompt, stream, temperature\x7d`. -/
structure Payload where
  prompt : String
  stream : Bool
  temperature : Option ℚ
deriving DecidableEq, Repr

namespace Sendchat

/-- Prompt rendering of `send_completion` (sendchat.py lines 43-49):
starting from the empty string, append `role.upper() + ": " + content + "\n"`
for each message in order, then append the trailing `"ASSISTANT: "` cue. -/
def renderPrompt (messages : List Message) : String :=
  (messages.foldl (fun acc msg => acc ++ msg.role.toUpper ++ ": " ++ msg.content ++ "\n") "")
    ++ "ASSISTANT: "

end Sendchat

namespace LlamaServerModel

/-- Prompt rendering of `LlamaServerModel.completion`
(llama_server_model.py lines 61-67); textually the same loop as the
facade's. -/
def renderPrompt (messages : List Message) : String :=
  (messages.foldl (fun acc msg => acc ++ msg.role.toUpper ++ ": " ++ msg.content ++ "\n") "")
    ++ "ASSISTANT: "

end LlamaServerModel

/-- The concatenation the spec describes: for each message in order,
its role upper-cased, `": "`, its content and a newline, followed by the
fixed trailing cue. -/
def specPrompt (messages : List Message) : String :=
  String.join (messages.map (fun msg => msg.role.toUpper ++ ": " ++ msg.content ++ "\n"))
    ++ "ASSISTANT: "

/-- A function spec passed through `functions`: a dict with at least a
`name` entry. -/
structure FunctionSpec where
  name : String
deriving DecidableEq, Repr

/-- The values that can appear in the kwargs dict handed to
`litellm.completion` (sendchat.py lines 108-122). -/
inductive PVal where
  | s (v : String)
  | b (v : Bool)
  | q (v : ℚ)
  | msgs (v : List Message)
  | toolsVal (f : FunctionSpec)
  | toolChoiceVal (fnName : String)
deriving DecidableEq, Repr

/-- JSON rendering of one message dict. -/
def renderMessage (m : Message) : String :=
  "\x7b\"role\": \"" ++ m.role ++ "\", \"content\": \"" ++ m.content ++ "\"\x7d"

/-- JSON rendering of one kwargs value. -/
def renderVal : PVal → String
  | .s v => "\"" ++ v ++ "\""
  | .b true => "true"
  | .b false => "false"
  | .q v => toString v.num ++ "/" ++ toString v.den
  | .msgs v => "[" ++ String.intercalate ", " (v.map renderMessage) ++ "]"
  | .toolsVal f =>
      "[\x7b\"type\": \"function\", \"function\": \x7b\"name\": \"" ++ f.name ++ "\"\x7d\x7d]"
  | .toolChoiceVal n =>
      "\x7b\"type\": \"function\", \"function\": \x7b\"name\": \"" ++ n ++ "\"\x7d\x7d"

/-- Insertion into a key-sorted association list. -/
def insertByKey (p : String × PVal) : List (String × PVal) → List (String × PVal)
  | [] => [p]
  | hd :: rest => if keyLe p.1 hd.1 then p :: hd :: rest else hd :: insertByKey p rest

/-- Sort an association list by key (the `sort_keys=True` of `json.dumps`). -/
def sortByKey (l : List (String × PVal)) : List (String × PVal) :=
  l.foldr insertByKey []

/-- Model of `json.dumps(kwargs, sort_keys=True)`: a deterministic
serialisation of the kwargs dict whose entries are emitted in sorted key
order. -/
def jsonDumpsSorted (kwargs : List (String × PVal)) : String :=
  "\x7b" ++ String.intercalate ", "
    ((sortByKey kwargs).map (fun p => "\"" ++ p.1 ++ "\": " ++ renderVal p.2)) ++ "\x7d"

/-- Python `dict` assignment `d[k] = v`: overwrite in place or append. -/
def dictSet (d : List (String × PVal)) (k : String) (v : PVal) : List (String × PVal) :=
  if d.any (fun p => strEq p.1 k) then d.map (fun p => if strEq p.1 k then (k, v) else p)
  else d ++ [(k, v)]

/-- Python `kwargs.update(extra_params)`: later entries override earlier
keys, new keys are appended. -/
def dictUpdate (d : List (String × PVal)) (extra : List (String × PVal)) :
    List (String × PVal) :=
  extra.foldl (fun acc p => dictSet acc p.1 p.2) d

/-- The `message` attribute object of a response choice; `none` content
models a missing attribute (reading it raises `AttributeError`). -/
structure MsgObj where
  content : Option String
deriving DecidableEq, Repr

/-- One element of a response object's `choices` list. -/
structure ChoiceObj where
  message : Option MsgObj
  finish_reason : Option String
deriving DecidableEq, Repr

/-- A duck-typed completion response object: `truthy` is its Python truth
value, `choices = none` models an object without a `choices` attribute. -/
structure RespObj where
  truthy : Bool
  choices : Option (List ChoiceObj)
deriving DecidableEq, Repr

/-- One chunk yielded by the facade's local-server streaming generator:
`choices[0].delta.content` and `choices[0].finish_reason`
(sendchat.py lines 77-83). -/
structure ChunkObj where
  delta_content : String
  finish_reason : Option String
deriving DecidableEq, Repr

/-- Exceptions `send_completion` / `simple_send_with_retries` can raise. -/
inductive SendErr where
  | importErr (msg : String)
  | runtimeErr (msg : String)
  | indexErr
  | liteErr (msg : String)
deriving DecidableEq, Repr

/-- The external world: availability of the `requests` library and oracles
for the HTTP endpoints, `json.loads`, and `litellm.completion`. -/
structure World where
  requestsAvailable : Bool
  postBlocking : Payload → Except String LocalData
  postStreaming : Payload → Except String (List String)
  jsonLoads : String → Except String LocalData
  litellmComplete : List (String × PVal) → Except String RespObj

/-- An observable I/O effect of `send_completion`. -/
inductive Effect where
  | localPost (payload : Payload)
  | litellmCall (kwargs : List (String × PVal))
deriving DecidableEq, Repr

/-- The value paired with the hash in `send_completion`'s return. -/
inductive SendVal where
  | localResp (r : RespObj)
  | localGen (chunks : List ChunkObj)
  | liteResp (r : RespObj)
deriving DecidableEq, Repr

namespace Sendchat

/-- The ceiling `RETRY_TIMEOUT = 60` (sendchat.py line 25). -/
def RETRY_TIMEOUT : ℚ := 60

/-- The arguments of `send_completion`, with the Python defaults. -/
structure SendArgs where
  model_name : String
  messages : List Message
  functions : Option (List FunctionSpec)
  stream : Bool
  temperature : Option ℚ := some 0
  extra_params : Option (List (String × PVal)) := none
deriving DecidableEq, Repr

/-- One normalized chunk of the facade's local streaming generator
(sendchat.py lines 76-81): delta content defaults to `""`, finish reason
is `"stop"` exactly when the chunk's `stop` field is true. -/
def sseChunk (d : LocalData) : ChunkObj :=
  ⟨d.content.getD "", if d.stop.getD false then some "stop" else none⟩

/-- The body of the facade's local streaming generator (sendchat.py lines
63-87): skip empty lines, skip lines without the `"data: "` SSE marker,
strip the marker, parse JSON; a line whose processing fails is printed and
skipped, never fatal. -/
def processLines (jsonLoads : String → Except String LocalData) :
    List String → List ChunkObj
  | [] => []
  | line :: rest =>
    if line = "" then processLines jsonLoads rest
    else if strStartsWith line "data: " then
      match jsonLoads (strDrop line 6) with
      | .error _ => processLines jsonLoads rest
      | .ok chunk => sseChunk chunk :: processLines jsonLoads rest
    else processLines jsonLoads rest

/-- The normalized non-streaming local response object (sendchat.py lines
96-100). -/
def mkLocalResp (d : LocalData) : RespObj :=
  ⟨true, some [⟨some ⟨some (d.content.getD "")⟩,
    if d.stop.getD false then some "stop" else none⟩]⟩

/-- The kwargs dict built for `litellm.completion` (sendchat.py lines
108-122): model, messages, stream; temperature only when non-null; when
`functions` is non-null its FIRST element is wrapped as a single tool with
forced tool choice (an empty list raises `IndexError` at `functions[0]`);
`extra_params` is merged last and can override any field. -/
def buildKwargs (a : SendArgs) : Except SendErr (List (String × PVal)) :=
  let kwargs0 : List (String × PVal) :=
    [("model", .s a.model_name), ("messages", .msgs a.messages), ("stream", .b a.stream)]
  let kwargs1 := match a.temperature with
    | none => kwargs0
    | some t => kwargs0 ++ [("temperature", .q t)]
  let mergeExtra := fun (kw : List (String × PVal)) => match a.extra_params with
    | none => kw
    | some e => dictUpdate kw e
  match a.functions with
  | none => .ok (mergeExtra kwargs1)
  | some [] => .error .indexErr
  | some (f :: _) =>
      .ok (mergeExtra
        (kwargs1 ++ [("tools", .toolsVal f), ("tool_choice", .toolChoiceVal f.name)]))

/-- Cache lookup (`key in CACHE` / `CACHE[key]`). -/
def cacheFind (c : List (String × RespObj)) (k : String) : Option RespObj :=
  (c.find? (fun p => strEq p.1 k)).map Prod.snd

/-- Cache store (`CACHE[key] = res`): the new entry shadows any older one. -/
def cacheInsert (c : List (String × RespObj)) (k : String) (v : RespObj) :
    List (String × RespObj) :=
  (k, v) :: c

/-- Embedding of `send_completion` (sendchat.py lines 28-135).  Returns the
result (the `(hash, response)` pair or the raised exception), the list of
I/O effects performed, and the cache after the call. -/
def send_completion (w : World) (cache : Option (List (String × RespObj)))
    (a : SendArgs) :
    Except SendErr (Sha1 × SendVal) × List Effect × Option (List (String × RespObj)) :=
  if strStartsWith a.model_name "llama-cpp/" then
    if w.requestsAvailable = false then
      (.error (.importErr
        "Requests library not installed. Install with: pip install requests"), [], cache)
    else
      let payload : Payload := ⟨renderPrompt a.messages, a.stream, a.temperature⟩
      if a.stream then
        match w.postStreaming payload with
        | .error e =>
            (.error (.runtimeErr ("Llama.cpp server completion failed: " ++ e)),
              [.localPost payload], cache)
        | .ok lines =>
            (.ok (sha1 "llama_server", .localGen (processLines w.jsonLoads lines)),
              [.localPost payload], cache)
      else
        match w.postBlocking payload with
        | .error e =>
            (.error (.runtimeErr ("Llama.cpp server completion failed: " ++ e)),
              [.localPost payload], cache)
        | .ok d =>
            (.ok (sha1 "llama_server", .localResp (mkLocalResp d)),
              [.localPost payload], cache)
  else
    match buildKwargs a with
    | .error e => (.error e, [], cache)
    | .ok kwargs =>
      let key := jsonDumpsSorted kwargs
      let cacheHit : Option RespObj :=
        if a.stream then none
        else match cache with
          | none => none
          | some c => cacheFind c key
      match cacheHit with
      | some res => (.ok (sha1 key, .liteResp res), [], cache)
      | none =>
        match w.litellmComplete kwargs with
        | .error e => (.error (.liteErr e), [.litellmCall kwargs], cache)
        | .ok res =>
          let cacheOut := if a.stream then cache
            else match cache with
              | none => none
              | some c => some (cacheInsert c key res)
          (.ok (sha1 key, .liteResp res), [.litellmCall kwargs], cacheOut)

/-- One attempt of the retry loop, as observed by
`simple_send_with_retries`: either `send_completion` returned a response,
or it raised an error classified by the `LiteLLMExceptions` collaborator
(with its retry flag and optional description), or it raised an exception
outside both `except` clauses. -/
inductive Attempt where
  | ok (r : RespObj)
  | classified (retry : Bool) (description : Option String)
  | uncaught (e : SendErr)
deriving DecidableEq, Repr

/-- The observable outcome of `simple_send_with_retries`. -/
inductive SimpleResult where
  | value (v : Option String)
  | raised (e : SendErr)
  | exhausted
deriving DecidableEq, Repr

/-- Extraction of the content from a returned response (sendchat.py lines
152-155 and the surrounding `except AttributeError`): `None` for a falsy
response, a missing `choices` attribute, or empty `choices`; a missing
`message`/`content` attribute raises `AttributeError`, caught to `None`;
otherwise `response.choices[0].message.content`. -/
def extractResult (r : RespObj) : SimpleResult :=
  if r.truthy = false then .value none
  else match r.choices with
    | none => .value none
    | some [] => .value none
    | some (c :: _) =>
      match c.message with
      | none => .value none
      | some m =>
        match m.content with
        | none => .value none
        | some s => .value (some s)

/-- The retry loop of `simple_send_with_retries` (sendchat.py lines
141-176), driven by the list of attempt outcomes and the current
`retry_delay`.  Returns the outcome and the list of delays slept. -/
def runRetries : List Attempt → ℚ → SimpleResult × List ℚ
  | [], _ => (.exhausted, [])
  | .ok r :: _, _ => (extractResult r, [])
  | .classified retryFlag _ :: rest, delay =>
    if retryFlag then
      if delay * 2 > RETRY_TIMEOUT then (.value none, [])
      else
        let next := runRetries rest (delay * 2)
        (next.1, delay * 2 :: next.2)
    else (.value none, [])
  | .uncaught e :: _, _ => (.raised e, [])

/-- Embedding of `simple_send_with_retries` (sendchat.py lines 138-176): the retry loop
started at delay `0.125`. -/
def simple_send_with_retries (attempts : List Attempt) : SimpleResult × List ℚ :=
  runRetries attempts 0.125

end Sendchat

namespace LlamaServerModel

/-- Exceptions observable from the Backend Adapter: `ValueError`,
the wrapping `RuntimeError`, and raw (unwrapped) exceptions from the
`requests` library and `json.loads`. -/
inductive PyErr where
  | valueErr (msg : String)
  | runtimeErr (msg : String)
  | transportErr (msg : String)
  | jsonErr (msg : String)
deriving DecidableEq, Repr

/-- The adapter's view of the network: oracles for the two `/completion`
request modes, `json.loads` on a streamed line, and `/tokenize`. -/
structure Net where
  postBlocking : Payload → Except String LocalData
  postStreaming : Payload → Except String (List String)
  jsonLoads : String → Except String LocalData
  tokenize : String → Except String (List Nat)

/-- An observable HTTP request of the adapter. -/
inductive NetEffect where
  | postCompletion (payload : Payload)
  | postTokenize (content : String)
deriving DecidableEq, Repr

/-- The `result["choices"][0]["message"]` dict of the blocking path. -/
structure AdapterMessage where
  content : String
deriving DecidableEq, Repr

/-- One element of the blocking path's `choices` list. -/
structure AdapterChoice where
  message : AdapterMessage
deriving DecidableEq, Repr

/-- The dict returned by `_blocking_completion`
(llama_server_model.py lines 114-120). -/
structure AdapterResp where
  choices : List AdapterChoice
deriving DecidableEq, Repr

/-- One dict yielded by `_stream_completion`
(llama_server_model.py lines 96-103). -/
structure StreamChunk where
  delta_content : String
  stop : Bool
deriving DecidableEq, Repr

/-- The value returned by `completion`: either the blocking dict, or the
generator object produced by calling `_stream_completion(payload)` —
a generator's body does not run until the caller iterates it, so the
value only captures the payload. -/
inductive CompletionVal where
  | blocking (r : AdapterResp)
  | streamGen (payload : Payload)
deriving DecidableEq, Repr

/-- Embedding of `LlamaServerModel.completion` (llama_server_model.py lines 40-82):
reject non-empty `functions` (`if functions:`), render the prompt, build
the payload, and dispatch.  The `try/except` wraps only the dispatch
expressions; for the streaming case calling `_stream_completion` merely
creates a generator, so no exception can occur inside the `try` there. -/
def completion (net : Net) (messages : List Message) (stream : Bool)
    (temperature : ℚ) (functions : Option (List FunctionSpec)) :
    Except PyErr CompletionVal × List NetEffect :=
  match functions with
  | some (_ :: _) =>
      (.error (.valueErr "Function calling not supported by llama.cpp server"), [])
  | _ =>
    let payload : Payload := ⟨renderPrompt messages, stream, some temperature⟩
    if stream then
      (.ok (.streamGen payload), [])
    else
      match net.postBlocking payload with
      | .error e =>
          (.error (.runtimeErr ("Llama.cpp server completion failed: " ++ e)),
            [.postCompletion payload])
      | .ok d =>
          (.ok (.blocking ⟨[⟨⟨d.content.getD ""⟩⟩]⟩), [.postCompletion payload])

/-- The per-line body of `_stream_completion` (llama_server_model.py lines
93-103): each truthy line is parsed with `json.loads` — with no `try`
around it, a parse failure propagates raw after the earlier chunks were
yielded.  Returns the chunks yielded and the error that ended iteration,
if any. -/
def drainChunks (jsonLoads : String → Except String LocalData) :
    List String → List StreamChunk × Option PyErr
  | [] => ([], none)
  | line :: rest =>
    if line = "" then drainChunks jsonLoads rest
    else
      match jsonLoads line with
      | .error e => ([], some (.jsonErr e))
      | .ok d =>
        let next := drainChunks jsonLoads rest
        (⟨d.content.getD "", d.stop.getD false⟩ :: next.1, next.2)

/-- Iterating the generator returned by the streaming path
(llama_server_model.py lines 84-103): only now does the body run, issuing
the POST; a transport failure here is raised raw to the iterating caller,
since the generator body executes outside `completion`'s `try/except`. -/
def forceStream (net : Net) (payload : Payload) :
    (List StreamChunk × Option PyErr) × List NetEffect :=
  match net.postStreaming payload with
  | .error e => (([], some (.transportErr e)), [.postCompletion payload])
  | .ok lines => (drainChunks net.jsonLoads lines, [.postCompletion payload])

/-- Embedding of `LlamaServerModel.token_count` (llama_server_model.py lines 122-147):
a raw string is tokenized as-is; a message list is first concatenated as
`role + ": " + content + "\n"` per message (role not upper-cased, no
trailing cue); the count is the length of the returned `tokens` list; any
failure is wrapped in a `RuntimeError`. -/
def token_count (net : Net) (input : String ⊕ List Message) :
    Except PyErr Nat × List NetEffect :=
  let text := match input with
    | .inl s => s
    | .inr msgs =>
        msgs.foldl (fun acc m => acc ++ m.role ++ ": " ++ m.content ++ "\n") ""
  match net.tokenize text with
  | .error e => (.error (.runtimeErr ("Token counting failed: " ++ e)),
      [.postTokenize text])
  | .ok tokens => (.ok tokens.length, [.postTokenize text])

end LlamaServerModel

/-- A concrete healthy world used to instantiate universally quantified
theorems at explicit inputs. -/
def testWorld : World where
  requestsAvailable := true
  postBlocking := fun _ => .ok ⟨some "hello", some true⟩
  postStreaming := fun _ => .ok ["data: x", ""]
  jsonLoads := fun _ => .ok ⟨some "hi", none⟩
  litellmComplete := fun _ => .ok ⟨true, some [⟨some ⟨some "ok"⟩, some "stop"⟩]⟩

/-- A concrete adapter-side network where every request fails with a
connection error. -/
def downNet : LlamaServerModel.Net where
  postBlocking := fun _ => .error "Connection refused"
  postStreaming := fun _ => .error "Connection refused"
  jsonLoads := fun _ => .error "Expecting value"
  tokenize := fun _ => .error "Connection refused"

/-- A concrete adapter-side network whose tokenizer reports three tokens
for every input. -/
def tokNet : LlamaServerModel.Net where
  postBlocking := fun _ => .ok ⟨some "hello", some true⟩
  postStreaming := fun _ => .ok []
  jsonLoads := fun _ => .ok ⟨some "hi", none⟩
  tokenize := fun _ => .ok [101, 102, 103]

/-- Concrete local-path arguments used by counterexamples and witnesses. -/
def localArgs : Sendchat.SendArgs where
  model_name := "llama-cpp/model"
  messages := [⟨"user", "hi"⟩]
  functions := none
  stream := false

/-- The kwargs bundle that the generic path would serialize for
`localArgs`. -/
def localArgsKwargs : List (String × PVal) :=
  [("model", .s "llama-cpp/model"), ("messages", .msgs [⟨"user", "hi"⟩]),
   ("stream", .b false), ("temperature", .q 0)]

/-- Concrete generic-path (non-local) arguments used by witnesses. -/
def genericArgs : Sendchat.SendArgs where
  model_name := "gpt-4"
  messages := [⟨"user", "hi"⟩]
  functions := none
  stream := false

/-- The kwargs bundle the generic path builds for `genericArgs`. -/
def genericKwargs : List (String × PVal) :=
  [("model", .s "gpt-4"), ("messages", .msgs [⟨"user", "hi"⟩]),
   ("stream", .b false), ("temperature", .q 0)]

/-- The arguments `genericArgs` with streaming enabled. -/
def genericStreamArgs : Sendchat.SendArgs where
  model_name := "gpt-4"
  messages := [⟨"user", "hi"⟩]
  functions := none
  stream := true

/-- The kwargs bundle the generic path builds for `genericStreamArgs`. -/
def genericStreamKwargs : List (String × PVal) :=
  [("model", .s "gpt-4"), ("messages", .msgs [⟨"user", "hi"⟩]),
   ("stream", .b true), ("temperature", .q 0)]

/-- The message-list concatenation `token_count` tokenizes: per message,
role (not upper-cased), `": "`, content, newline; no trailing cue.
Definitionally the fold the source performs. -/
def tokenText (msgs : List Message) : String :=
  msgs.foldl (fun acc m => acc ++ m.role ++ ": " ++ m.content ++ "\n") ""

section Theorems

open Sendchat LlamaServerModel

lemma foldl_append_string (messages : List Message) (acc : String) :
    messages.foldl (fun a msg => a ++ msg.role.toUpper ++ ": " ++ msg.content ++ "\n") acc
      = acc ++ String.join (messages.map
          (fun msg => msg.role.toUpper ++ ": " ++ msg.content ++ "\n")) := by
  induction messages generalizing acc with
  | nil => apply String.ext; simp [String.join_eq]
  | cons m ms ih =>
    rw [List.foldl_cons, ih]
    apply String.ext
    simp [String.join_eq]

lemma foldl_token_text (messages : List Message) (acc : String) :
    messages.foldl (fun a msg => a ++ msg.role ++ ": " ++ msg.content ++ "\n") acc
      = acc ++ String.join (messages.map
          (fun msg => msg.role ++ ": " ++ msg.content ++ "\n")) := by
  induction messages generalizing acc with
  | nil => apply String.ext; simp [String.join_eq]
  | cons m ms ih =>
    rw [List.foldl_cons, ih]
    apply String.ext
    simp [String.join_eq]

/-- C5: for every message list, the rendered prompt equals the concatenation,
in original list order, of each message's role upper-cased, the separator
`": "`, the message's content, and a newline, followed by the fixed trailing
cue `"ASSISTANT: "`; and the facade's direct local-server path and the
Backend Adapter produce identical renderings for the same message list. -/
theorem prompt_rendering_spec_and_agreement (messages : List Message) :
    Sendchat.renderPrompt messages = specPrompt messages ∧
    Sendchat.renderPrompt messages = LlamaServerModel.renderPrompt messages := by
  constructor
  · unfold Sendchat.renderPrompt specPrompt
    rw [foldl_append_string]
    apply String.ext
    simp [String.join_eq]
  · rfl

/-- C7: for every non-empty `functions` argument,
`LlamaServerModel.completion` raises the descriptive `ValueError`
("Function calling not supported by llama.cpp server") before performing
any network I/O: the effect trace is empty. -/
theorem functions_fail_fast (net : LlamaServerModel.Net) (messages : List Message)
    (stream : Bool) (temperature : ℚ) (f : FunctionSpec) (fs : List FunctionSpec) :
    LlamaServerModel.completion net messages stream temperature (some (f :: fs))
      = (.error (.valueErr "Function calling not supported by llama.cpp server"), []) := rfl

/-- C4 (code bug): with the server unreachable, the streaming call
`completion(stream=True)` succeeds without I/O (it merely builds the
generator), and iterating the generator raises the RAW transport exception
to the caller — not the classified `RuntimeError` the claim requires —
because the generator body runs outside `completion`'s `try/except`. -/
theorem stream_transport_error_escapes_raw :
    LlamaServerModel.completion downNet [⟨"user", "hi"⟩] true (7/10) none
      = (.ok (.streamGen ⟨LlamaServerModel.renderPrompt [⟨"user", "hi"⟩], true,
          some (7/10)⟩), []) ∧
    LlamaServerModel.forceStream downNet
        ⟨LlamaServerModel.renderPrompt [⟨"user", "hi"⟩], true, some (7/10)⟩
      = (([], some (.transportErr "Connection refused")),
         [.postCompletion ⟨LlamaServerModel.renderPrompt [⟨"user", "hi"⟩], true,
           some (7/10)⟩]) ∧
    ∀ m, LlamaServerModel.PyErr.transportErr "Connection refused"
        ≠ LlamaServerModel.PyErr.runtimeErr m :=
  ⟨rfl, rfl, fun _ h => LlamaServerModel.PyErr.noConfusion h⟩

/-- C9: `token_count` returns exactly the length of the tokens array the
tokenize endpoint reports: for a raw string, tokenizing the string itself;
for a message list, tokenizing the concatenation per message of role (not
upper-cased), `": "`, content and a newline, with no trailing cue. -/
theorem token_count_matches_tokenize (net : LlamaServerModel.Net) (s : String)
    (msgs : List Message) (toksS toksM : List Nat)
    (hs : net.tokenize s = .ok toksS)
    (hm : net.tokenize (tokenText msgs) = .ok toksM) :
    (LlamaServerModel.token_count net (.inl s)).1 = .ok toksS.length ∧
    tokenText msgs = String.join (msgs.map
        (fun m => m.role ++ ": " ++ m.content ++ "\n")) ∧
    (LlamaServerModel.token_count net (.inr msgs)).1 = .ok toksM.length := by
  refine ⟨?_, ?_, ?_⟩
  · unfold LlamaServerModel.token_count
    simp [hs]
  · unfold tokenText
    rw [foldl_token_text]
    rfl
  · unfold LlamaServerModel.token_count
    have : net.tokenize (List.foldl
        (fun acc m => acc ++ m.role ++ ": " ++ m.content ++ "\n") "" msgs) = .ok toksM := hm
    simp [this]

/-- Witness for C9 at a concrete network and inputs. -/
theorem token_count_matches_tokenize_witness :
    (LlamaServerModel.token_count tokNet (.inl "hello")).1 = .ok 3 ∧
    (LlamaServerModel.token_count tokNet (.inr [⟨"user", "hi"⟩])).1 = .ok 3 := by
  have h := token_count_matches_tokenize tokNet "hello" [⟨"user", "hi"⟩]
    [101, 102, 103] [101, 102, 103] rfl rfl
  exact ⟨h.1, h.2.2⟩

/-- C1: for every `send_completion` call, if the model name starts with the
reserved local-server tag `"llama-cpp/"` then `litellm.completion` is never
invoked; for every other model name no direct HTTP request is ever made to
the hardcoded local completion endpoint. -/
theorem dispatch_routing_isolation (w : World)
    (cache : Option (List (String × RespObj))) (a : Sendchat.SendArgs) :
    (strStartsWith a.model_name "llama-cpp/" = true →
      ∀ kwargs, Effect.litellmCall kwargs ∉ (Sendchat.send_completion w cache a).2.1) ∧
    (strStartsWith a.model_name "llama-cpp/" = false →
      ∀ p, Effect.localPost p ∉ (Sendchat.send_completion w cache a).2.1) := by
  constructor
  · intro h kwargs
    unfold Sendchat.send_completion
    simp only [h, if_true]
    split
    · simp
    · split
      · split <;> simp
      · split <;> simp
  · intro h p
    unfold Sendchat.send_completion
    simp only [h, Bool.false_eq_true, if_false]
    split
    · simp
    · split
      · simp
      · split <;> simp

/-- Witness for C1 at concrete calls on both routes. -/
theorem dispatch_routing_isolation_witness :
    Effect.litellmCall genericKwargs
        ∉ (Sendchat.send_completion testWorld none localArgs).2.1 ∧
    Effect.localPost ⟨"p", false, some 0⟩
        ∉ (Sendchat.send_completion testWorld none genericArgs).2.1 :=
  ⟨(dispatch_routing_isolation testWorld none localArgs).1 rfl genericKwargs,
   (dispatch_routing_isolation testWorld none genericArgs).2 rfl ⟨"p", false, some 0⟩⟩

/-- C10: for every model name not starting with the local-server tag,
calling `send_completion` with `functions` equal to the empty list (non-null
but empty) raises from indexing `functions[0]`, rather than behaving like
`functions=None`: no kwargs are built, no backend is invoked. -/
theorem empty_functions_list_raises (w : World)
    (cache : Option (List (String × RespObj))) (a : Sendchat.SendArgs)
    (h1 : strStartsWith a.model_name "llama-cpp/" = false)
    (h2 : a.functions = some []) :
    (Sendchat.send_completion w cache a).1 = .error .indexErr ∧
    (Sendchat.send_completion w cache a).2.1 = [] := by
  unfold Sendchat.send_completion Sendchat.buildKwargs
  simp [h1, h2]

/-- Witness for C10 at a concrete call. -/
theorem empty_functions_list_raises_witness :
    (Sendchat.send_completion testWorld none
        ⟨"gpt-4", [⟨"user", "hi"⟩], some [], false, some 0, none⟩).1
      = .error .indexErr ∧
    (Sendchat.send_completion testWorld none
        ⟨"gpt-4", [⟨"user", "hi"⟩], some [], false, some 0, none⟩).2.1 = [] :=
  empty_functions_list_raises testWorld none
    ⟨"gpt-4", [⟨"user", "hi"⟩], some [], false, some 0, none⟩ rfl rfl

/-- C3 counterexample: a successful local-server-path call returns as first
component the fixed `sha1("llama_server")`, which differs from the hash of
the serialized parameter bundle the claim requires. -/
theorem hash_claim_counterexample :
    (Sendchat.send_completion testWorld none localArgs).1
      = .ok (sha1 "llama_server",
          .localResp ⟨true, some [⟨some ⟨some "hello"⟩, some "stop"⟩]⟩) ∧
    Sendchat.buildKwargs localArgs = .ok localArgsKwargs ∧
    sha1 "llama_server" ≠ sha1 (jsonDumpsSorted localArgsKwargs) := by
  refine ⟨rfl, rfl, fun h => ?_⟩
  have h2 : "llama_server" = jsonDumpsSorted localArgsKwargs := congrArg Sha1.input h
  exact absurd h2 (by decide)

/-- C3 amended: on the generic-library path the first component of every
successful return is the sha1 of the parameter bundle serialized with
sorted keys, returned alongside the response or generator; on the
local-server path the first component is instead the fixed sha1 of the
constant byte string `"llama_server"`. -/
theorem hash_of_serialized_bundle (w : World)
    (cache : Option (List (String × RespObj))) (a : Sendchat.SendArgs) :
    (strStartsWith a.model_name "llama-cpp/" = false →
      ∀ h v, (Sendchat.send_completion w cache a).1 = .ok (h, v) →
        ∃ kwargs, Sendchat.buildKwargs a = .ok kwargs ∧
          h = sha1 (jsonDumpsSorted kwargs)) ∧
    (strStartsWith a.model_name "llama-cpp/" = true →
      ∀ h v, (Sendchat.send_completion w cache a).1 = .ok (h, v) →
        h = sha1 "llama_server") := by
  constructor
  · intro hm h v hok
    unfold Sendchat.send_completion at hok
    simp only [hm, Bool.false_eq_true, if_false] at hok
    cases hk : Sendchat.buildKwargs a with
    | error e => rw [hk] at hok; simp at hok
    | ok kwargs =>
      rw [hk] at hok
      refine ⟨kwargs, rfl, ?_⟩
      simp only [] at hok
      split at hok
      · simp only [Prod.fst] at hok
        injection hok with hpair
        injection hpair with hh hv
        exact hh.symm
      · split at hok
        · simp at hok
        · simp only [Prod.fst] at hok
          injection hok with hpair
          injection hpair with hh hv
          exact hh.symm
  · intro hm h v hok
    unfold Sendchat.send_completion at hok
    simp only [hm, if_true] at hok
    split at hok
    · simp at hok
    · split at hok
      · split at hok
        · simp at hok
        · injection hok with hpair
          injection hpair with hh hv
          exact hh.symm
      · split at hok
        · simp at hok
        · injection hok with hpair
          injection hpair with hh hv
          exact hh.symm

/-- Witness for C3's amended theorem on both routes at concrete calls. -/
theorem hash_of_serialized_bundle_witness :
    (∃ kwargs, Sendchat.buildKwargs genericArgs = .ok kwargs ∧
        sha1 (jsonDumpsSorted genericKwargs) = sha1 (jsonDumpsSorted kwargs)) ∧
    sha1 "llama_server" = sha1 "llama_server" :=
  ⟨(hash_of_serialized_bundle testWorld none genericArgs).1 rfl
      (sha1 (jsonDumpsSorted genericKwargs))
      (.liteResp ⟨true, some [⟨some ⟨some "ok"⟩, some "stop"⟩]⟩) rfl,
   (hash_of_serialized_bundle testWorld none localArgs).2 rfl
      (sha1 "llama_server")
      (.localResp ⟨true, some [⟨some ⟨some "hello"⟩, some "stop"⟩]⟩) rfl⟩

lemma cacheFind_cacheInsert (c : List (String × RespObj)) (k : String) (v : RespObj) :
    Sendchat.cacheFind (Sendchat.cacheInsert c k v) k = some v := by
  simp [Sendchat.cacheFind, Sendchat.cacheInsert, List.find?, strEq]

/-- C8: with a cache configured, two `send_completion` calls with identical
non-streaming arguments produce the same hash, and the second call returns
the stored response with no backend invocation; streaming calls are never
consulted against or stored in the cache, so each identical streaming call
invokes the backend afresh and leaves the cache unchanged. -/
theorem cache_idempotence_and_stream_bypass (w : World)
    (c : List (String × RespObj)) (a : Sendchat.SendArgs)
    (kwargs : List (String × PVal))
    (hm : strStartsWith a.model_name "llama-cpp/" = false)
    (hk : Sendchat.buildKwargs a = .ok kwargs) :
    (a.stream = false →
      ∀ h1 v1, (Sendchat.send_completion w (some c) a).1 = .ok (h1, v1) →
        ∃ res,
          Sendchat.cacheFind ((Sendchat.send_completion w (some c) a).2.2.getD [])
              (jsonDumpsSorted kwargs) = some res ∧
          (Sendchat.send_completion w (Sendchat.send_completion w (some c) a).2.2 a).1
            = .ok (h1, .liteResp res) ∧
          (Sendchat.send_completion w (Sendchat.send_completion w (some c) a).2.2 a).2.1
            = []) ∧
    (a.stream = true →
      (Sendchat.send_completion w (some c) a).2.1 = [Effect.litellmCall kwargs] ∧
      (Sendchat.send_completion w (some c) a).2.2 = some c) := by
  constructor
  · intro hstream h1 v1 hok
    cases hfind : Sendchat.cacheFind c (jsonDumpsSorted kwargs) with
    | some res =>
      have hcall : Sendchat.send_completion w (some c) a
          = (.ok (sha1 (jsonDumpsSorted kwargs), .liteResp res), [], some c) := by
        unfold Sendchat.send_completion
        simp [hm, hk, hstream, hfind]
      simp only [hcall] at hok
      simp only [Except.ok.injEq, Prod.mk.injEq] at hok
      obtain ⟨hh, hv⟩ := hok
      refine ⟨res, ?_, ?_, ?_⟩
      · simp only [hcall]
        exact hfind
      · simp only [hcall]
        simp [hh]
      · simp only [hcall]
    | none =>
      cases hlit : w.litellmComplete kwargs with
      | error e =>
        have hcall : (Sendchat.send_completion w (some c) a).1 = .error (.liteErr e) := by
          unfold Sendchat.send_completion
          simp [hm, hk, hstream, hfind, hlit]
        rw [hcall] at hok
        simp at hok
      | ok res =>
        have hcall : Sendchat.send_completion w (some c) a
            = (.ok (sha1 (jsonDumpsSorted kwargs), .liteResp res), [.litellmCall kwargs],
               some (Sendchat.cacheInsert c (jsonDumpsSorted kwargs) res)) := by
          unfold Sendchat.send_completion
          simp [hm, hk, hstream, hfind, hlit]
        have hcall2 : Sendchat.send_completion w
            (some (Sendchat.cacheInsert c (jsonDumpsSorted kwargs) res)) a
            = (.ok (sha1 (jsonDumpsSorted kwargs), .liteResp res), [],
               some (Sendchat.cacheInsert c (jsonDumpsSorted kwargs) res)) := by
          unfold Sendchat.send_completion
          simp [hm, hk, hstream, cacheFind_cacheInsert]
        simp only [hcall] at hok
        simp only [Except.ok.injEq, Prod.mk.injEq] at hok
        obtain ⟨hh, hv⟩ := hok
        refine ⟨res, ?_, ?_, ?_⟩
        · simp only [hcall]
          exact cacheFind_cacheInsert c (jsonDumpsSorted kwargs) res
        · simp only [hcall, hcall2]
          simp [hh]
        · simp only [hcall, hcall2]
  · intro hstream
    cases hlit : w.litellmComplete kwargs with
    | error e =>
      have hcall : Sendchat.send_completion w (some c) a
          = (.error (.liteErr e), [.litellmCall kwargs], some c) := by
        unfold Sendchat.send_completion
        simp [hm, hk, hstream, hlit]
      exact ⟨by simp [hcall], by simp [hcall]⟩
    | ok res =>
      have hcall : Sendchat.send_completion w (some c) a
          = (.ok (sha1 (jsonDumpsSorted kwargs), .liteResp res), [.litellmCall kwargs],
             some c) := by
        unfold Sendchat.send_completion
        simp [hm, hk, hstream, hlit]
      exact ⟨by simp [hcall], by simp [hcall]⟩

/-- Witness for C8: a concrete cached pair of calls and a concrete
streaming call. -/
theorem cache_idempotence_witness :
    (∃ res,
      Sendchat.cacheFind
          ((Sendchat.send_completion testWorld (some []) genericArgs).2.2.getD [])
          (jsonDumpsSorted genericKwargs) = some res ∧
      (Sendchat.send_completion testWorld
          (Sendchat.send_completion testWorld (some []) genericArgs).2.2 genericArgs).1
        = .ok (sha1 (jsonDumpsSorted genericKwargs), .liteResp res) ∧
      (Sendchat.send_completion testWorld
          (Sendchat.send_completion testWorld (some []) genericArgs).2.2 genericArgs).2.1
        = []) ∧
    (Sendchat.send_completion testWorld (some []) genericStreamArgs).2.1
      = [Effect.litellmCall genericStreamKwargs] ∧
    (Sendchat.send_completion testWorld (some []) genericStreamArgs).2.2 = some [] :=
  ⟨(cache_idempotence_and_stream_bypass testWorld [] genericArgs genericKwargs
      rfl rfl).1 rfl (sha1 (jsonDumpsSorted genericKwargs))
      (.liteResp ⟨true, some [⟨some ⟨some "ok"⟩, some "stop"⟩]⟩) rfl,
   (cache_idempotence_and_stream_bypass testWorld [] genericStreamArgs
      genericStreamKwargs rfl rfl).2 rfl⟩

lemma runRetries_sleeps_closed_form (attempts : List Sendchat.Attempt) (d : ℚ) :
    ∀ i, i < (Sendchat.runRetries attempts d).2.length →
      (Sendchat.runRetries attempts d).2.get? i = some (d * 2 ^ (i + 1)) := by
  induction attempts generalizing d with
  | nil => intro i h; simp [Sendchat.runRetries] at h
  | cons a rest ih =>
    cases a with
    | ok r => intro i h; simp [Sendchat.runRetries] at h
    | uncaught e => intro i h; simp [Sendchat.runRetries] at h
    | classified rf desc =>
      cases rf with
      | false => intro i h; simp [Sendchat.runRetries] at h
      | true =>
        by_cases hc : d * 2 > Sendchat.RETRY_TIMEOUT
        · intro i h; simp [Sendchat.runRetries, hc] at h
        · have heq : Sendchat.runRetries (.classified true desc :: rest) d
              = ((Sendchat.runRetries rest (d * 2)).1,
                 d * 2 :: (Sendchat.runRetries rest (d * 2)).2) := by
            simp [Sendchat.runRetries, hc]
          intro i h
          rw [heq] at h ⊢
          match i with
          | 0 => simp [pow_one]
          | Nat.succ j =>
            rw [List.get?_cons_succ]
            rw [ih (d * 2) j (by simpa using Nat.lt_of_succ_lt_succ h)]
            have harith : d * 2 * 2 ^ (j + 1) = d * 2 ^ (j + 1 + 1) := by ring
            rw [harith]

lemma runRetries_sleeps_le (attempts : List Sendchat.Attempt) (d : ℚ) :
    ∀ s ∈ (Sendchat.runRetries attempts d).2, s ≤ Sendchat.RETRY_TIMEOUT := by
  induction attempts generalizing d with
  | nil => simp [Sendchat.runRetries]
  | cons a rest ih =>
    cases a with
    | ok r => simp [Sendchat.runRetries]
    | uncaught e => simp [Sendchat.runRetries]
    | classified rf desc =>
      cases rf with
      | false => simp [Sendchat.runRetries]
      | true =>
        by_cases hc : d * 2 > Sendchat.RETRY_TIMEOUT
        · simp [Sendchat.runRetries, hc]
        · intro s hs
          simp only [Sendchat.runRetries, if_true, if_neg hc] at hs
          rcases List.mem_cons.mp hs with h1 | h2
          · rw [h1]; exact le_of_not_lt hc
          · exact ih (d * 2) s h2

/-- C2: the retry delay starts at 0.125 and is doubled on each classified
retryable error; the doubled delay is what is slept (the i-th sleep equals
0.125·2^(i+1)); the loop returns None without sleeping as soon as the
doubled delay exceeds the ceiling `RETRY_TIMEOUT = 60`, and otherwise
sleeps the doubled delay before the next attempt; hence no sleep ever
exceeds 60 and a sleep of 64 never occurs. -/
theorem retry_backoff_schedule (attempts : List Sendchat.Attempt) :
    (∀ i, i < (Sendchat.simple_send_with_retries attempts).2.length →
        (Sendchat.simple_send_with_retries attempts).2.get? i
          = some ((0.125 : ℚ) * 2 ^ (i + 1))) ∧
    (∀ s ∈ (Sendchat.simple_send_with_retries attempts).2, s ≤ 60 ∧ s ≠ 64) ∧
    (∀ (desc : Option String) (rest : List Sendchat.Attempt) (d : ℚ),
        d * 2 > Sendchat.RETRY_TIMEOUT →
        Sendchat.runRetries (.classified true desc :: rest) d = (.value none, [])) ∧
    (∀ (desc : Option String) (rest : List Sendchat.Attempt) (d : ℚ),
        ¬ d * 2 > Sendchat.RETRY_TIMEOUT →
        Sendchat.runRetries (.classified true desc :: rest) d
          = ((Sendchat.runRetries rest (d * 2)).1,
             d * 2 :: (Sendchat.runRetries rest (d * 2)).2)) := by
  refine ⟨runRetries_sleeps_closed_form attempts 0.125, ?_, ?_, ?_⟩
  · intro s hs
    have h1 := runRetries_sleeps_le attempts 0.125 s hs
    have h2 : s ≤ 60 := by simpa [Sendchat.RETRY_TIMEOUT] using h1
    exact ⟨h2, fun he => by rw [he] at h2; norm_num at h2⟩
  · intro desc rest d hc
    simp [Sendchat.runRetries, hc]
  · intro desc rest d hc
    simp [Sendchat.runRetries, hc]

/-- Witness for C2: at delay 32 a further retryable error would double to
64 > 60 and the loop fails without sleeping; at delay 16 it sleeps the
doubled 32. -/
theorem retry_backoff_schedule_witness :
    Sendchat.runRetries [.classified true none] 32 = (.value none, []) ∧
    Sendchat.runRetries [.classified true none, .classified true none] 16
      = ((Sendchat.runRetries [.classified true none] (16 * 2)).1,
         16 * 2 :: (Sendchat.runRetries [.classified true none] (16 * 2)).2) :=
  ⟨(retry_backoff_schedule []).2.2.1 none [] 32 (by norm_num [Sendchat.RETRY_TIMEOUT]),
   (retry_backoff_schedule []).2.2.2 none [.classified true none] 16
     (by norm_num [Sendchat.RETRY_TIMEOUT])⟩

/-- C6: `simple_send_with_retries` returns None, without raising, when the
response is falsy, lacks a `choices` attribute, or has an empty `choices`
list, and when a classified non-retryable error is raised; on a
well-shaped response it returns exactly
`response.choices[0].message.content`. -/
theorem simple_send_soft_failures :
    (∀ (r : RespObj) (rest : List Sendchat.Attempt) (d : ℚ), r.truthy = false →
        Sendchat.runRetries (.ok r :: rest) d = (.value none, [])) ∧
    (∀ (r : RespObj) (rest : List Sendchat.Attempt) (d : ℚ), r.choices = none →
        Sendchat.runRetries (.ok r :: rest) d = (.value none, [])) ∧
    (∀ (r : RespObj) (rest : List Sendchat.Attempt) (d : ℚ), r.choices = some [] →
        Sendchat.runRetries (.ok r :: rest) d = (.value none, [])) ∧
    (∀ (desc : Option String) (rest : List Sendchat.Attempt) (d : ℚ),
        Sendchat.runRetries (.classified false desc :: rest) d = (.value none, [])) ∧
    (∀ (s : String) (fr : Option String) (cs : List ChoiceObj)
        (rest : List Sendchat.Attempt) (d : ℚ),
        Sendchat.runRetries (.ok ⟨true, some (⟨some ⟨some s⟩, fr⟩ :: cs)⟩ :: rest) d
          = (.value (some s), [])) := by
  refine ⟨?_, ?_, ?_, ?_, ?_⟩
  · intro r rest d h
    simp [Sendchat.runRetries, Sendchat.extractResult, h]
  · intro r rest d h
    cases hr : r.truthy <;>
      simp [Sendchat.runRetries, Sendchat.extractResult, h, hr]
  · intro r rest d h
    cases hr : r.truthy <;>
      simp [Sendchat.runRetries, Sendchat.extractResult, h, hr]
  · intro desc rest d
    simp [Sendchat.runRetries]
  · intro s fr cs rest d
    simp [Sendchat.runRetries, Sendchat.extractResult]

/-- Witness for C6: a response without `choices`, a non-retryable error,
and a well-shaped response, at concrete inputs. -/
theorem simple_send_soft_failures_witness :
    Sendchat.runRetries [.ok ⟨true, none⟩] 0.125 = (.value none, []) ∧
    Sendchat.runRetries [.classified false none] 0.125 = (.value none, []) ∧
    Sendchat.runRetries [.ok ⟨true, some [⟨some ⟨some "hi"⟩, none⟩]⟩] 0.125
      = (.value (some "hi"), []) :=
  ⟨simple_send_soft_failures.2.1 ⟨true, none⟩ [] 0.125 rfl,
   simple_send_soft_failures.2.2.2.1 none [] 0.125,
   simple_send_soft_failures.2.2.2.2 "hi" none [] [] 0.125⟩

end Theorems

end Aider
